import Mathlib

/-!
Shallow embedding of `src/cegid-import.py` (cardosojc/cgd-importer).

The program downloads named files from an SFTP server and either keeps them
locally or uploads them to S3, optionally deleting each file from the SFTP
server after a successful transfer.  The core is `process_files`
(lines 276-380), which classifies every input filename into outcome buckets,
plus the exit-code computation at the tail of `main` (lines 519-531) and the
CSV list reader `read_csv_filenames` (lines 248-273).

Collaborator behaviour (the paramiko SFTP client and the boto3 S3 client) is
modelled as functions from the operation's argument to `Except ExcKind Unit`:
`.ok ()` means the underlying call returned normally, `.error e` means it
raised an exception of kind `e`.  The manager-class methods of the source are
translated one by one on top of these behaviours, preserving exactly which
exception kinds each `try/except` absorbs.  Every embedded run also produces
a trace of the externally visible operations it performed, so that claims of
the form "no fetch/upload/delete is attempted" are provable about the trace.
-/

/-- Kind of Python exception raised by a low-level collaborator call.
`clientError code` stands for `botocore.exceptions.ClientError` with the
given error code; `fileNotFound` for `FileNotFoundError`; `otherError` for
any other `Exception` (e.g. a connection error). -/
inductive ExcKind where
  | fileNotFound
  | clientError (code : String)
  | otherError
deriving DecidableEq, Repr

/-- Behaviour of the underlying paramiko SFTP client for one run: what each
low-level call does when invoked on a given argument.  Downloads and
deletions are keyed by the remote filename (each is invoked at most once per
filename per run). -/
structure SFTPBeh where
  chdir : String → Except ExcKind Unit
  stat : String → Except ExcKind Unit
  getFile : String → Except ExcKind Unit
  remove : String → Except ExcKind Unit

/-- Behaviour of the underlying boto3 S3 client for one run, keyed by S3 key. -/
structure S3Beh where
  headObject : String → Except ExcKind Unit
  uploadFile : String → Except ExcKind Unit

/-- Embeds `SFTPManager.change_directory` (lines 71-79): `chdir` in a
`try/except Exception`, returning `False` on any exception. -/
def SFTPManager.change_directory (b : SFTPBeh) (remote_path : String) : Bool :=
  match b.chdir remote_path with
  | .ok _ => true
  | .error _ => false

/-- Embeds `SFTPManager.file_exists` (lines 81-90): `stat` with
`except FileNotFoundError: return False` and `except Exception: return False`
— every exception kind yields `False`; the method never raises. -/
def SFTPManager.file_exists (b : SFTPBeh) (filename : String) : Bool :=
  match b.stat filename with
  | .ok _ => true
  | .error .fileNotFound => false
  | .error _ => false

/-- Embeds `SFTPManager.download_file_to_local` (lines 92-123): on success
returns the joined local path, on any exception returns `None`. -/
def SFTPManager.download_file_to_local (b : SFTPBeh) (remote_filename local_path : String) :
    Option String :=
  match b.getFile remote_filename with
  | .ok _ => some (local_path ++ "/" ++ remote_filename)
  | .error _ => none

/-- Embeds `SFTPManager.download_file_to_temp` (lines 125-153): same contract
as `download_file_to_local` but joining against the temp directory. -/
def SFTPManager.download_file_to_temp (b : SFTPBeh) (remote_filename temp_dir : String) :
    Option String :=
  match b.getFile remote_filename with
  | .ok _ => some (temp_dir ++ "/" ++ remote_filename)
  | .error _ => none

/-- Embeds `SFTPManager.delete_file` (lines 155-163): `remove` in a
`try/except Exception`, returning `False` on any exception. -/
def SFTPManager.delete_file (b : SFTPBeh) (filename : String) : Bool :=
  match b.remove filename with
  | .ok _ => true
  | .error _ => false

/-- Embeds `S3Manager.file_exists` (lines 235-245): `head_object` with
`except ClientError` only — a `ClientError` of code 404 returns `False`, any
other `ClientError` code is logged and also returns `False`, but every
non-`ClientError` exception propagates to the caller. -/
def S3Manager.file_exists (b : S3Beh) (s3_key : String) : Except ExcKind Bool :=
  match b.headObject s3_key with
  | .ok _ => .ok true
  | .error (.clientError code) => if code = "404" then .ok false else .ok false
  | .error e => .error e

/-- Embeds `S3Manager.upload_file` (lines 219-233): `upload_file` in a
`try/except Exception`, returning `False` on any exception. -/
def S3Manager.upload_file (b : S3Beh) (s3_key : String) : Bool :=
  match b.uploadFile s3_key with
  | .ok _ => true
  | .error _ => false

/-- Embeds Python's `s3_prefix.rstrip('/')`: drop all trailing `/` characters. -/
def rstripSlashes (s : String) : String :=
  String.mk ((s.data.reverse.dropWhile fun c => c = '/').reverse)

/-- Embeds the key computation of line 319:
`f"{s3_prefix.rstrip('/')}/{filename}" if s3_prefix else filename`. -/
def s3KeyOf (s3pre filename : String) : String :=
  if s3pre ≠ "" then rstripSlashes s3pre ++ "/" ++ filename else filename

/-- Externally visible operation performed during a run, for trace claims. -/
inductive Op where
  | sftpStat (f : String)
  | s3Head (k : String)
  | sftpGetTemp (f : String)
  | sftpGetLocal (f : String)
  | s3Upload (k : String)
  | sftpRemove (f : String)
  | mkTempDir
  | rmTempDir
deriving DecidableEq, Repr

/-- Terminal classification of one filename inside the loop of
`process_files`.  `successOutcome deleteFailed` covers lines 361-369: the
filename is recorded in `success`, and additionally in `sftp_delete_failed`
when `deleteFailed` is true. -/
inductive FileOutcome where
  | notFound
  | alreadyExists
  | downloadFailed
  | uploadFailed
  | successOutcome (deleteFailed : Bool)
deriving DecidableEq, Repr

/-- Embeds the `results` dict of `process_files` (lines 282-289). -/
structure Results where
  success : List String
  sftp_not_found : List String
  sftp_download_failed : List String
  s3_upload_failed : List String
  sftp_delete_failed : List String
  s3_already_exists : List String
deriving DecidableEq, Repr

/-- The empty `results` dict created at line 282. -/
def emptyResults : Results := ⟨[], [], [], [], [], []⟩

/-- Embeds the bucket appends of the loop body: which `results` lists gain
`filename` for each terminal classification (lines 314, 324, 334, 344/355,
366, 369). -/
def applyOutcome (r : Results) (filename : String) : FileOutcome → Results
  | .notFound => { r with sftp_not_found := r.sftp_not_found ++ [filename] }
  | .alreadyExists => { r with s3_already_exists := r.s3_already_exists ++ [filename] }
  | .downloadFailed => { r with sftp_download_failed := r.sftp_download_failed ++ [filename] }
  | .uploadFailed => { r with s3_upload_failed := r.s3_upload_failed ++ [filename] }
  | .successOutcome deleteFailed =>
      let r1 := if deleteFailed then
        { r with sftp_delete_failed := r.sftp_delete_failed ++ [filename] } else r
      { r1 with success := r1.success ++ [filename] }

/-- Embeds lines 361-369 of the loop body: the optional SFTP deletion after a
successful download/upload, followed by marking the filename as success. -/
def deletePhase (sftp : SFTPBeh) (delete_from_sftp : Bool) (filename : String)
    (ops : List Op) : List Op × Except ExcKind FileOutcome :=
  if delete_from_sftp then
    let ops1 := ops ++ [Op.sftpRemove filename]
    if SFTPManager.delete_file sftp filename then
      (ops1, .ok (.successOutcome false))
    else
      (ops1, .ok (.successOutcome true))
  else
    (ops, .ok (.successOutcome false))

/-- Embeds lines 327-359 in S3 mode: download to the temp dir (line 329),
classify a failed download (lines 333-335), then the upload block
(lines 338-359).  `S3Manager.upload_file` itself absorbs every exception, so
the surrounding `try/except` of lines 339-356 never fires and the upload
block never raises; an upload failure skips the deletion (lines 358-359). -/
def s3TransferPhase (sftp : SFTPBeh) (s3 : S3Beh) (download_dir s3_key : String)
    (delete_from_sftp : Bool) (filename : String) (ops : List Op) :
    List Op × Except ExcKind FileOutcome :=
  let ops1 := ops ++ [Op.sftpGetTemp filename]
  match SFTPManager.download_file_to_temp sftp filename download_dir with
  | none => (ops1, .ok .downloadFailed)
  | some _ =>
      let ops2 := ops1 ++ [Op.s3Upload s3_key]
      if S3Manager.upload_file s3 s3_key then
        deletePhase sftp delete_from_sftp filename ops2
      else
        (ops2, .ok .uploadFailed)

/-- Embeds one iteration of the `for filename in filenames` loop of
`process_files` (lines 308-369).  Returns the operations performed and either
the filename's terminal classification or the exception that escapes the
iteration (the loop body catches exceptions only inside the collaborator
methods and the upload block, so the only escape point is a non-`ClientError`
raised by `S3Manager.file_exists` during the destination pre-check at
line 322, which short-circuits behind `not overwrite_s3`). -/
def processOne (sftp : SFTPBeh) (s3m : Option S3Beh) (download_dir s3pre : String)
    (delete_from_sftp overwrite_s3 : Bool) (filename : String) :
    List Op × Except ExcKind FileOutcome :=
  let ops0 := [Op.sftpStat filename]
  if SFTPManager.file_exists sftp filename = false then
    (ops0, .ok .notFound)
  else
    match s3m with
    | none =>
        let ops1 := ops0 ++ [Op.sftpGetLocal filename]
        match SFTPManager.download_file_to_local sftp filename download_dir with
        | none => (ops1, .ok .downloadFailed)
        | some _ => deletePhase sftp delete_from_sftp filename ops1
    | some s3 =>
        let s3_key := s3KeyOf s3pre filename
        if overwrite_s3 = false then
          let ops1 := ops0 ++ [Op.s3Head s3_key]
          match S3Manager.file_exists s3 s3_key with
          | .error e => (ops1, .error e)
          | .ok true => (ops1, .ok .alreadyExists)
          | .ok false => s3TransferPhase sftp s3 download_dir s3_key delete_from_sftp filename ops1
        else
          s3TransferPhase sftp s3 download_dir s3_key delete_from_sftp filename ops0

/-- Embeds the whole `for` loop of lines 308-369: fold `processOne` over the
filename list, applying each classification to the `results` dict; an
escaping exception stops the loop with the results accumulated so far. -/
def processLoop (sftp : SFTPBeh) (s3m : Option S3Beh) (download_dir s3pre : String)
    (delete_from_sftp overwrite_s3 : Bool) :
    List String → Results → Results × List Op × Option ExcKind
  | [], r => (r, [], none)
  | f :: fs, r =>
      match processOne sftp s3m download_dir s3pre delete_from_sftp overwrite_s3 f with
      | (ops, .error e) => (r, ops, some e)
      | (ops, .ok oc) =>
          match processLoop sftp s3m download_dir s3pre delete_from_sftp overwrite_s3 fs
              (applyOutcome r f oc) with
          | (r1, ops1, exc) => (r1, ops ++ ops1, exc)

/-- Embeds `process_files` (lines 276-380).  `temp_dir` stands for the path
`tempfile.mkdtemp` would return.  The result is the `results` dict, the
operation trace (temp-dir creation at line 298 and the `finally` removal of
lines 371-378 included), and the exception escaping the loop, if any — in
Python that exception propagates to the caller after the `finally` block, so
the dict is returned to the caller exactly when the third component is
`none`. -/
def process_files (sftp : SFTPBeh) (s3m : Option S3Beh) (filenames : List String)
    (remote_sftp_path local_download_path s3pre : String)
    (delete_from_sftp overwrite_s3 : Bool) (temp_dir : String) :
    Results × List Op × Option ExcKind :=
  if SFTPManager.change_directory sftp remote_sftp_path = false then
    (emptyResults, [], none)
  else
    let use_s3 := s3m.isSome
    let download_dir := if use_s3 then temp_dir else local_download_path
    let mkOps : List Op := if use_s3 then [Op.mkTempDir] else []
    match processLoop sftp s3m download_dir s3pre delete_from_sftp overwrite_s3
        filenames emptyResults with
    | (r, ops, exc) =>
        let rmOps : List Op := if use_s3 then [Op.rmTempDir] else []
        (r, mkOps ++ ops ++ rmOps, exc)

/-- Embeds the exit-code computation at the tail of `main` (lines 519-531):
in S3 mode `total_failures` counts `sftp_download_failed` plus
`s3_upload_failed`; in local mode only `sftp_download_failed`; the return
value is 1 when `total_failures > 0` and 0 otherwise. -/
def exitCode (results : Results) (use_s3 : Bool) : Nat :=
  let total_failures :=
    if use_s3 then results.sftp_download_failed.length + results.s3_upload_failed.length
    else results.sftp_download_failed.length
  if total_failures > 0 then 1 else 0

/-- Embeds lines 504-531 of `main` (the CSV-list path, after a successful
SFTP connect): run `process_files`, then compute the return code.  When an
exception escapes `process_files`, `main` has no `except` clause, so no
return code is produced by this path (the interpreter terminates on the
traceback); that case is `none`. -/
def mainProcessAndExit (sftp : SFTPBeh) (s3m : Option S3Beh) (filenames : List String)
    (remote_sftp_path local_download_path s3pre : String)
    (delete_from_sftp overwrite_s3 : Bool) (temp_dir : String) : Option Nat :=
  match process_files sftp s3m filenames remote_sftp_path local_download_path s3pre
      delete_from_sftp overwrite_s3 temp_dir with
  | (results, _, none) => some (exitCode results s3m.isSome)
  | (_, _, some _) => none

/-- Input to `read_csv_filenames`, as seen through Python's `open` + `csv`:
the file may be absent (`open` raises `FileNotFoundError`), opening or
parsing may raise some other `Exception` (covers e.g. a header-less file),
or it parses into a header row and data rows.  Each data row is the
association list produced by `csv.DictReader`; a column missing from a row
is an absent key (DictReader maps it to `None`, and `None.strip()` raises). -/
inductive CsvInput where
  | absent
  | failOpen
  | content (fieldnames : List String) (rows : List (List (String × String)))

/-- Embeds Python's `str.strip()`: drop leading and trailing whitespace
(structurally on the character list, so concrete inputs evaluate). -/
def pyStrip (s : String) : String :=
  String.mk (((s.data.dropWhile Char.isWhitespace).reverse.dropWhile
    Char.isWhitespace).reverse)

/-- Embeds the row loop of lines 260-263: collect `row[col].strip()` for each
row, skipping empty strings; `none` signals that some row lacked the column,
which raises in Python and is caught by the outer `except Exception`. -/
def extractNames (rows : List (List (String × String))) (col : String) :
    Option (List String) :=
  match rows with
  | [] => some []
  | row :: rest =>
      match List.lookup col row with
      | none => none
      | some v =>
          match extractNames rest col with
          | none => none
          | some names =>
              if pyStrip v ≠ "" then some (pyStrip v :: names) else some names

/-- Embeds `read_csv_filenames` (lines 248-273): `None` when the file does
not exist, `[]` when the column is missing from the header or any exception
occurs while reading, otherwise the non-empty stripped names in row order. -/
def read_csv_filenames (input : CsvInput) (filename_column : String) :
    Option (List String) :=
  match input with
  | .absent => none
  | .failOpen => some []
  | .content fieldnames rows =>
      if filename_column ∈ fieldnames then
        match extractNames rows filename_column with
        | some names => some names
        | none => some []
      else some []

/-- Concatenation of the five primary outcome buckets (every bucket except
the advisory `sftp_delete_failed`). -/
def primary (r : Results) : List String :=
  r.success ++ r.sftp_not_found ++ r.sftp_download_failed ++
    r.s3_upload_failed ++ r.s3_already_exists

/-- Path condition: the destination pre-check of lines 317-325 does not
terminate the iteration — there is no destination store, or overwrite is
enabled (the check short-circuits), or the key is reported absent. -/
def precheckClear (s3m : Option S3Beh) (overwrite_s3 : Bool) (s3pre filename : String) : Bool :=
  match s3m with
  | none => true
  | some s3 =>
      overwrite_s3 ||
        (match S3Manager.file_exists s3 (s3KeyOf s3pre filename) with
         | .ok false => true
         | _ => false)

/-- Concrete behaviour: every collaborator call succeeds. -/
def sftpAllOk : SFTPBeh :=
  { chdir := fun _ => .ok (), stat := fun _ => .ok (),
    getFile := fun _ => .ok (), remove := fun _ => .ok () }

/-- Concrete behaviour: changing the remote directory raises, all else succeeds. -/
def sftpChdirFails : SFTPBeh :=
  { chdir := fun _ => .error .otherError, stat := fun _ => .ok (),
    getFile := fun _ => .ok (), remove := fun _ => .ok () }

/-- Concrete behaviour: every download raises, all else succeeds. -/
def sftpGetFails : SFTPBeh :=
  { chdir := fun _ => .ok (), stat := fun _ => .ok (),
    getFile := fun _ => .error .otherError, remove := fun _ => .ok () }

/-- Concrete behaviour: every deletion raises, all else succeeds. -/
def sftpRemoveFails : SFTPBeh :=
  { chdir := fun _ => .ok (), stat := fun _ => .ok (),
    getFile := fun _ => .ok (), remove := fun _ => .error .otherError }

/-- Concrete S3 behaviour: `head_object` raises a non-`ClientError`
(e.g. a connection error), uploads succeed. -/
def s3HeadRaises : S3Beh :=
  { headObject := fun _ => .error .otherError, uploadFile := fun _ => .ok () }

/-- Concrete S3 behaviour: every key is reported present, uploads succeed. -/
def s3KeyPresent : S3Beh :=
  { headObject := fun _ => .ok (), uploadFile := fun _ => .ok () }

/-- Concrete S3 behaviour: every key is reported absent (`ClientError` 404),
uploads succeed. -/
def s3KeyAbsent : S3Beh :=
  { headObject := fun _ => .error (.clientError "404"), uploadFile := fun _ => .ok () }

lemma deletePhase_eq (sftp : SFTPBeh) (del : Bool) (f : String) (ops : List Op) :
    deletePhase sftp del f ops =
      (if del then ops ++ [Op.sftpRemove f] else ops,
       .ok (.successOutcome (del && !SFTPManager.delete_file sftp f))) := by
  unfold deletePhase
  cases del <;> cases h : SFTPManager.delete_file sftp f <;> simp [h]


lemma mem_s3TransferPhase_fst (sftp : SFTPBeh) (s3 : S3Beh) (dd key : String)
    (del : Bool) (f : String) (ops : List Op) (op : Op)
    (h : op ∈ (s3TransferPhase sftp s3 dd key del f ops).1) :
    op ∈ ops ∨ op = Op.sftpGetTemp f ∨ op = Op.s3Upload key ∨ op = Op.sftpRemove f := by
  unfold s3TransferPhase at h
  cases hg : SFTPManager.download_file_to_temp sftp f dd with
  | none =>
      rw [hg] at h
      simp at h
      tauto
  | some p =>
      rw [hg] at h
      by_cases hu : S3Manager.upload_file s3 key = true
      · simp only [deletePhase_eq, hu] at h
        cases del <;> simp at h <;> tauto
      · simp only [hu] at h
        simp at h
        tauto

lemma file_exists_true_of_not_false (sftp : SFTPBeh) (f : String)
    (h : ¬ SFTPManager.file_exists sftp f = false) :
    SFTPManager.file_exists sftp f = true := by
  revert h
  cases SFTPManager.file_exists sftp f <;> simp

lemma mem_processOne_fst (sftp : SFTPBeh) (s3m : Option S3Beh) (dd pre : String)
    (del ow : Bool) (f : String) (op : Op)
    (h : op ∈ (processOne sftp s3m dd pre del ow f).1) :
    op = Op.sftpStat f ∨ op = Op.s3Head (s3KeyOf pre f) ∨ op = Op.sftpGetTemp f ∨
      op = Op.sftpGetLocal f ∨ op = Op.s3Upload (s3KeyOf pre f) ∨ op = Op.sftpRemove f := by
  unfold processOne at h
  by_cases hfe : SFTPManager.file_exists sftp f = false
  · simp [hfe] at h
    tauto
  · rw [file_exists_true_of_not_false sftp f hfe] at h
    simp only [Bool.true_eq_false, if_false, ite_false] at h
    cases s3m with
    | none =>
        cases hg : SFTPManager.download_file_to_local sftp f dd with
        | none =>
            rw [hg] at h
            simp at h
            tauto
        | some p =>
            rw [hg] at h
            simp only [deletePhase_eq] at h
            cases del <;> simp at h <;> tauto
    | some s3 =>
        by_cases how : ow = false
        · simp only [how, if_true, ite_true] at h
          cases hex : S3Manager.file_exists s3 (s3KeyOf pre f) with
          | error e =>
              rw [hex] at h
              simp at h
              tauto
          | ok b =>
              cases b
              · rw [hex] at h
                have := mem_s3TransferPhase_fst sftp s3 dd (s3KeyOf pre f) del f
                  ([Op.sftpStat f] ++ [Op.s3Head (s3KeyOf pre f)]) op h
                simp at this
                tauto
              · rw [hex] at h
                simp at h
                tauto
        · simp only [how] at h
          rw [if_neg (by simp)] at h
          have := mem_s3TransferPhase_fst sftp s3 dd (s3KeyOf pre f) del f
            [Op.sftpStat f] op h
          simp at this
          tauto

lemma mem_processLoop_ops (sftp : SFTPBeh) (s3m : Option S3Beh) (dd pre : String)
    (del ow : Bool) :
    ∀ (fs : List String) (r : Results) (op : Op),
      op ∈ (processLoop sftp s3m dd pre del ow fs r).2.1 →
      ∃ f, f ∈ fs ∧ op ∈ (processOne sftp s3m dd pre del ow f).1 := by
  intro fs
  induction fs with
  | nil => intro r op h; simp [processLoop] at h
  | cons f fs ih =>
      intro r op h
      cases hpo : processOne sftp s3m dd pre del ow f with
      | mk ops0 res =>
        cases res with
        | error e =>
            simp only [processLoop, hpo] at h
            exact ⟨f, by simp, by rw [hpo]; exact h⟩
        | ok oc =>
            simp only [processLoop, hpo] at h
            cases hrec : processLoop sftp s3m dd pre del ow fs (applyOutcome r f oc) with
            | mk r2 rest =>
              cases rest with
              | mk ops2 exc2 =>
                rw [hrec] at h
                simp only [List.mem_append] at h
                cases h with
                | inl h => exact ⟨f, by simp, by rw [hpo]; exact h⟩
                | inr h =>
                    obtain ⟨g, hg, hmem⟩ := ih (applyOutcome r f oc) op (by rw [hrec]; exact h)
                    exact ⟨g, by simp [hg], hmem⟩

lemma processOne_successOutcome_flag (sftp : SFTPBeh) (s3m : Option S3Beh)
    (dd pre : String) (del ow : Bool) (f : String) (df : Bool)
    (h : (processOne sftp s3m dd pre del ow f).2 = .ok (.successOutcome df)) :
    df = (del && !SFTPManager.delete_file sftp f) := by
  unfold processOne at h
  by_cases hfe : SFTPManager.file_exists sftp f = false
  · simp [hfe] at h
  · rw [file_exists_true_of_not_false sftp f hfe] at h
    rw [if_neg (by simp)] at h
    cases s3m with
    | none =>
        cases hg : SFTPManager.download_file_to_local sftp f dd with
        | none => rw [hg] at h; simp at h
        | some p =>
            rw [hg] at h
            simp only [deletePhase_eq] at h
            simp at h
            exact h.symm
    | some s3 =>
        by_cases how : ow = false
        · simp only [how, if_true, ite_true] at h
          cases hex : S3Manager.file_exists s3 (s3KeyOf pre f) with
          | error e => rw [hex] at h; simp at h
          | ok b =>
              cases b
              · rw [hex] at h
                unfold s3TransferPhase at h
                cases hg : SFTPManager.download_file_to_temp sftp f dd with
                | none => rw [hg] at h; simp at h
                | some p =>
                    rw [hg] at h
                    by_cases hu : S3Manager.upload_file s3 (s3KeyOf pre f) = true
                    · simp only [deletePhase_eq, hu] at h
                      simp at h
                      exact h.symm
                    · simp only [hu] at h
                      simp at h
              · rw [hex] at h; simp at h
        · simp only [how] at h
          rw [if_neg (by simp)] at h
          unfold s3TransferPhase at h
          cases hg : SFTPManager.download_file_to_temp sftp f dd with
          | none => rw [hg] at h; simp at h
          | some p =>
              rw [hg] at h
              by_cases hu : S3Manager.upload_file s3 (s3KeyOf pre f) = true
              · simp only [deletePhase_eq, hu] at h
                simp at h
                exact h.symm
              · simp only [hu] at h
                simp at h

lemma s3_file_exists_error_char (b : S3Beh) (k : String) (e : ExcKind)
    (h : S3Manager.file_exists b k = .error e) :
    b.headObject k = .error e ∧ ∀ c, e ≠ ExcKind.clientError c := by
  unfold S3Manager.file_exists at h
  cases hh : b.headObject k with
  | ok u => rw [hh] at h; simp at h
  | error e2 =>
      cases e2 with
      | clientError c =>
          rw [hh] at h
          by_cases hc : c = "404" <;> simp [hc] at h
      | fileNotFound =>
          rw [hh] at h
          simp at h
          subst h
          exact ⟨rfl, by intro c hc; cases hc⟩
      | otherError =>
          rw [hh] at h
          simp at h
          subst h
          exact ⟨rfl, by intro c hc; cases hc⟩

lemma s3TransferPhase_snd_ne_error (sftp : SFTPBeh) (s3 : S3Beh) (dd key : String)
    (del : Bool) (f : String) (ops : List Op) (e : ExcKind) :
    (s3TransferPhase sftp s3 dd key del f ops).2 ≠ .error e := by
  unfold s3TransferPhase
  cases hg : SFTPManager.download_file_to_temp sftp f dd with
  | none => simp
  | some p =>
      by_cases hu : S3Manager.upload_file s3 key = true
      · simp only [deletePhase_eq, hu]
        simp
      · simp only [hu]
        simp

lemma processOne_error_char (sftp : SFTPBeh) (s3m : Option S3Beh) (dd pre : String)
    (del ow : Bool) (f : String) (e : ExcKind)
    (h : (processOne sftp s3m dd pre del ow f).2 = .error e) :
    ∃ s3, s3m = some s3 ∧ ow = false ∧
      s3.headObject (s3KeyOf pre f) = .error e ∧ ∀ c, e ≠ ExcKind.clientError c := by
  unfold processOne at h
  by_cases hfe : SFTPManager.file_exists sftp f = false
  · simp [hfe] at h
  · rw [file_exists_true_of_not_false sftp f hfe] at h
    rw [if_neg (by simp)] at h
    cases s3m with
    | none =>
        cases hg : SFTPManager.download_file_to_local sftp f dd with
        | none => rw [hg] at h; simp at h
        | some p =>
            rw [hg] at h
            simp only [deletePhase_eq] at h
            simp at h
    | some s3 =>
        by_cases how : ow = false
        · simp only [how, if_true, ite_true] at h
          cases hex : S3Manager.file_exists s3 (s3KeyOf pre f) with
          | error e2 =>
              rw [hex] at h
              simp at h
              rw [h] at hex
              obtain ⟨h1, h2⟩ := s3_file_exists_error_char s3 (s3KeyOf pre f) e hex
              exact ⟨s3, rfl, how, h1, h2⟩
          | ok b =>
              cases b
              · rw [hex] at h
                exact absurd h (s3TransferPhase_snd_ne_error _ _ _ _ _ _ _ _)
              · rw [hex] at h; simp at h
        · simp only [how] at h
          rw [if_neg (by simp)] at h
          exact absurd h (s3TransferPhase_snd_ne_error _ _ _ _ _ _ _ _)

lemma processLoop_error_char (sftp : SFTPBeh) (s3m : Option S3Beh) (dd pre : String)
    (del ow : Bool) :
    ∀ (fs : List String) (r r1 : Results) (ops : List Op) (e : ExcKind),
      processLoop sftp s3m dd pre del ow fs r = (r1, ops, some e) →
      ∃ f, f ∈ fs ∧ (processOne sftp s3m dd pre del ow f).2 = .error e := by
  intro fs
  induction fs with
  | nil => intro r r1 ops e h; simp [processLoop] at h
  | cons f fs ih =>
      intro r r1 ops e h
      cases hpo : processOne sftp s3m dd pre del ow f with
      | mk ops0 res =>
        cases res with
        | error e2 =>
            simp only [processLoop, hpo] at h
            simp only [Prod.mk.injEq] at h
            obtain ⟨-, -, he⟩ := h
            obtain rfl : e2 = e := by injection he
            exact ⟨f, by simp, by rw [hpo]⟩
        | ok oc =>
            simp only [processLoop, hpo] at h
            cases hrec : processLoop sftp s3m dd pre del ow fs (applyOutcome r f oc) with
            | mk r2 rest =>
              cases rest with
              | mk ops2 exc2 =>
                rw [hrec] at h
                simp only [Prod.mk.injEq] at h
                obtain ⟨-, -, hexc⟩ := h
                obtain ⟨g, hg, hge⟩ := ih (applyOutcome r f oc) r2 ops2 e (by rw [hrec, hexc])
                exact ⟨g, by simp [hg], hge⟩

lemma processOne_local_cases (sftp : SFTPBeh) (dd pre : String) (del ow : Bool)
    (f : String) :
    (processOne sftp none dd pre del ow f).2 = .ok .notFound ∨
    (processOne sftp none dd pre del ow f).2 = .ok .downloadFailed ∨
    ∃ df, (processOne sftp none dd pre del ow f).2 = .ok (.successOutcome df) := by
  unfold processOne
  by_cases hfe : SFTPManager.file_exists sftp f = false
  · simp [hfe]
  · rw [file_exists_true_of_not_false sftp f hfe]
    rw [if_neg (by simp)]
    cases hg : SFTPManager.download_file_to_local sftp f dd with
    | none => simp
    | some p =>
        simp only [deletePhase_eq]
        simp

lemma applyOutcome_s3_buckets_of_local (r : Results) (f : String) (oc : FileOutcome)
    (hoc : oc = .notFound ∨ oc = .downloadFailed ∨ ∃ df, oc = .successOutcome df) :
    (applyOutcome r f oc).s3_upload_failed = r.s3_upload_failed ∧
    (applyOutcome r f oc).s3_already_exists = r.s3_already_exists := by
  rcases hoc with rfl | rfl | ⟨df, rfl⟩
  · simp [applyOutcome]
  · simp [applyOutcome]
  · cases df <;> simp [applyOutcome]

lemma processLoop_local_s3_buckets (sftp : SFTPBeh) (dd pre : String) (del ow : Bool) :
    ∀ (fs : List String) (r : Results),
      (processLoop sftp none dd pre del ow fs r).1.s3_upload_failed = r.s3_upload_failed ∧
      (processLoop sftp none dd pre del ow fs r).1.s3_already_exists = r.s3_already_exists := by
  intro fs
  induction fs with
  | nil => intro r; simp [processLoop]
  | cons f fs ih =>
      intro r
      cases hpo : processOne sftp none dd pre del ow f with
      | mk ops0 res =>
        cases res with
        | error e =>
            exfalso
            rcases processOne_local_cases sftp dd pre del ow f with h | h | ⟨df, h⟩ <;>
              rw [hpo] at h <;> simp at h
        | ok oc =>
            have hoc : oc = .notFound ∨ oc = .downloadFailed ∨
                ∃ df, oc = .successOutcome df := by
              rcases processOne_local_cases sftp dd pre del ow f with h | h | ⟨df, h⟩ <;>
                rw [hpo] at h <;> simp at h <;> simp [h]
            simp only [processLoop, hpo]
            cases hrec : processLoop sftp none dd pre del ow fs (applyOutcome r f oc) with
            | mk r2 rest =>
              cases rest with
              | mk ops2 exc2 =>
                have hib := ih (applyOutcome r f oc)
                rw [hrec] at hib
                have hap := applyOutcome_s3_buckets_of_local r f oc hoc
                exact ⟨by rw [hib.1, hap.1], by rw [hib.2, hap.2]⟩

lemma applyOutcome_mem_mono (r : Results) (f x : String) (oc : FileOutcome) :
    (x ∈ r.success → x ∈ (applyOutcome r f oc).success) ∧
    (x ∈ r.sftp_delete_failed → x ∈ (applyOutcome r f oc).sftp_delete_failed) := by
  cases oc with
  | successOutcome df => cases df <;> simp [applyOutcome] <;> tauto
  | notFound => simp [applyOutcome]
  | alreadyExists => simp [applyOutcome]
  | downloadFailed => simp [applyOutcome]
  | uploadFailed => simp [applyOutcome]

lemma processLoop_mem_mono (sftp : SFTPBeh) (s3m : Option S3Beh) (dd pre : String)
    (del ow : Bool) :
    ∀ (fs : List String) (r : Results) (x : String),
      (x ∈ r.success → x ∈ (processLoop sftp s3m dd pre del ow fs r).1.success) ∧
      (x ∈ r.sftp_delete_failed →
        x ∈ (processLoop sftp s3m dd pre del ow fs r).1.sftp_delete_failed) := by
  intro fs
  induction fs with
  | nil => intro r x; simp [processLoop]
  | cons f fs ih =>
      intro r x
      cases hpo : processOne sftp s3m dd pre del ow f with
      | mk ops0 res =>
        cases res with
        | error e => simp only [processLoop, hpo]; exact ⟨id, id⟩
        | ok oc =>
            simp only [processLoop, hpo]
            cases hrec : processLoop sftp s3m dd pre del ow fs (applyOutcome r f oc) with
            | mk r2 rest =>
              cases rest with
              | mk ops2 exc2 =>
                have hib := ih (applyOutcome r f oc) x
                rw [hrec] at hib
                have hap := applyOutcome_mem_mono r f x oc
                exact ⟨fun hx => hib.1 (hap.1 hx), fun hx => hib.2 (hap.2 hx)⟩

lemma processLoop_mem_of_delete_failed_success (sftp : SFTPBeh) (s3m : Option S3Beh)
    (dd pre : String) (del ow : Bool) :
    ∀ (fs : List String) (r r1 : Results) (ops : List Op) (f : String),
      processLoop sftp s3m dd pre del ow fs r = (r1, ops, none) → f ∈ fs →
      (processOne sftp s3m dd pre del ow f).2 = .ok (.successOutcome true) →
      f ∈ r1.success ∧ f ∈ r1.sftp_delete_failed := by
  intro fs
  induction fs with
  | nil => intro r r1 ops f h hmem hone; simp at hmem
  | cons g fs ih =>
      intro r r1 ops f h hmem hone
      cases hpo : processOne sftp s3m dd pre del ow g with
      | mk ops0 res =>
        cases res with
        | error e => simp [processLoop, hpo] at h
        | ok oc =>
            simp only [processLoop, hpo] at h
            cases hrec : processLoop sftp s3m dd pre del ow fs (applyOutcome r g oc) with
            | mk r2 rest =>
              cases rest with
              | mk ops2 exc2 =>
                rw [hrec] at h
                simp only [Prod.mk.injEq] at h
                obtain ⟨hr, -, hexc⟩ := h
                rcases List.mem_cons.mp hmem with rfl | hmem2
                · have hoc : oc = .successOutcome true := by
                    rw [hpo] at hone
                    simpa using hone
                  subst hoc
                  have hmono := processLoop_mem_mono sftp s3m dd pre del ow fs
                    (applyOutcome r f (.successOutcome true)) f
                  rw [hrec, hr] at hmono
                  exact ⟨hmono.1 (by simp [applyOutcome]),
                    hmono.2 (by simp [applyOutcome])⟩
                · have := ih (applyOutcome r g oc) r2 ops2 f (by rw [hrec, hexc]) hmem2 hone
                  rw [← hr]
                  exact this

lemma process_files_components (sftp : SFTPBeh) (s3m : Option S3Beh)
    (filenames : List String) (remote localp pre : String) (del ow : Bool)
    (temp : String)
    (hcd : SFTPManager.change_directory sftp remote = true) :
    (process_files sftp s3m filenames remote localp pre del ow temp).1 =
      (processLoop sftp s3m (if s3m.isSome then temp else localp) pre del ow
        filenames emptyResults).1 ∧
    (process_files sftp s3m filenames remote localp pre del ow temp).2.2 =
      (processLoop sftp s3m (if s3m.isSome then temp else localp) pre del ow
        filenames emptyResults).2.2 ∧
    (process_files sftp s3m filenames remote localp pre del ow temp).2.1 =
      (if s3m.isSome then [Op.mkTempDir] else []) ++
        (processLoop sftp s3m (if s3m.isSome then temp else localp) pre del ow
          filenames emptyResults).2.1 ++
        (if s3m.isSome then [Op.rmTempDir] else []) := by
  unfold process_files
  rw [if_neg (by simp [hcd])]
  cases hrec : processLoop sftp s3m (if s3m.isSome then temp else localp) pre del ow
      filenames emptyResults with
  | mk r2 rest =>
    cases rest with
    | mk ops2 exc2 => simp [hrec]

lemma process_files_local_s3_buckets (sftp : SFTPBeh) (filenames : List String)
    (remote localp pre temp : String) (del ow : Bool) :
    (process_files sftp none filenames remote localp pre del ow temp).1.s3_upload_failed = [] ∧
    (process_files sftp none filenames remote localp pre del ow temp).1.s3_already_exists = [] := by
  by_cases hcd : SFTPManager.change_directory sftp remote = true
  · have hc := (process_files_components sftp none filenames remote localp pre del ow
      temp hcd).1
    rw [hc]
    simpa using processLoop_local_s3_buckets sftp localp pre del ow filenames emptyResults
  · have hcd2 : SFTPManager.change_directory sftp remote = false := by
      revert hcd; cases SFTPManager.change_directory sftp remote <;> simp
    unfold process_files
    rw [if_pos hcd2]
    simp [emptyResults]

lemma exitCode_eq_one_iff (r : Results) (use_s3 : Bool)
    (hup : use_s3 = false → r.s3_upload_failed = []) :
    (exitCode r use_s3 = 1 ↔
      (r.sftp_download_failed ≠ [] ∨ r.s3_upload_failed ≠ [])) := by
  cases use_s3 with
  | false =>
      unfold exitCode
      rw [hup rfl]
      rcases r.sftp_download_failed with _ | ⟨x, xs⟩ <;> simp
  | true =>
      unfold exitCode
      rcases hdl : r.sftp_download_failed with _ | ⟨x, xs⟩ <;>
        rcases hupf : r.s3_upload_failed with _ | ⟨y, ys⟩ <;> simp

lemma count_primary_applyOutcome (r : Results) (f a : String) (oc : FileOutcome) :
    List.count a (primary (applyOutcome r f oc)) =
      List.count a (primary r) + List.count a [f] := by
  cases oc with
  | successOutcome df =>
      cases df <;>
        simp only [primary, applyOutcome, List.count_append, Bool.false_eq_true,
          if_false, if_true, ite_true, ite_false] <;> omega
  | notFound => simp only [primary, applyOutcome, List.count_append]; omega
  | alreadyExists => simp only [primary, applyOutcome, List.count_append]; omega
  | downloadFailed => simp only [primary, applyOutcome, List.count_append]; omega
  | uploadFailed => simp only [primary, applyOutcome, List.count_append]; omega

lemma processLoop_count (sftp : SFTPBeh) (s3m : Option S3Beh) (dd pre : String)
    (del ow : Bool) :
    ∀ (fs : List String) (r r1 : Results) (ops : List Op),
      processLoop sftp s3m dd pre del ow fs r = (r1, ops, none) →
      ∀ a, List.count a (primary r1) = List.count a (primary r) + List.count a fs := by
  intro fs
  induction fs with
  | nil =>
      intro r r1 ops h a
      simp only [processLoop, Prod.mk.injEq] at h
      rw [← h.1]
      simp
  | cons f fs ih =>
      intro r r1 ops h a
      cases hpo : processOne sftp s3m dd pre del ow f with
      | mk ops0 res =>
        cases res with
        | error e => simp [processLoop, hpo] at h
        | ok oc =>
            simp only [processLoop, hpo] at h
            cases hrec : processLoop sftp s3m dd pre del ow fs (applyOutcome r f oc) with
            | mk r2 rest =>
              cases rest with
              | mk ops2 exc2 =>
                rw [hrec] at h
                simp only [Prod.mk.injEq] at h
                obtain ⟨hr, -, hexc⟩ := h
                have hcount := ih (applyOutcome r f oc) r2 ops2 (by rw [hrec, hexc]) a
                rw [← hr, hcount, count_primary_applyOutcome]
                rw [show f :: fs = [f] ++ fs from rfl, List.count_append]
                omega

/-- C1: for every input list of filenames (assumed unique), when the initial
remote-directory selection succeeds and `process_files` returns its Run
Result (no collaborator fault escaped), every filename is recorded in exactly
one of the primary buckets `success`, `sftp_not_found`,
`sftp_download_failed`, `s3_upload_failed`, `s3_already_exists`
(`sftp_delete_failed` is the separate advisory channel), and the
concatenation of those buckets is a permutation of the input list — no
filename lost or duplicated; when directory selection fails, all buckets of
the returned Run Result are empty. -/
theorem C1_run_result_partitions_input (sftp : SFTPBeh) (s3m : Option S3Beh)
    (filenames : List String) (remote localp pre temp : String) (del ow : Bool)
    (hnd : filenames.Nodup) :
    (∀ r ops, SFTPManager.change_directory sftp remote = true →
        process_files sftp s3m filenames remote localp pre del ow temp = (r, ops, none) →
        (primary r).Perm filenames) ∧
    (SFTPManager.change_directory sftp remote = false →
        (process_files sftp s3m filenames remote localp pre del ow temp).1 =
          emptyResults) := by
  constructor
  · intro r ops hcd heq
    have hc := process_files_components sftp s3m filenames remote localp pre del ow temp hcd
    rw [heq] at hc
    obtain ⟨h1, h2, -⟩ := hc
    cases hrec : processLoop sftp s3m (if s3m.isSome then temp else localp) pre del ow
        filenames emptyResults with
    | mk r2 rest =>
      cases rest with
      | mk ops2 exc2 =>
        rw [hrec] at h1 h2
        dsimp at h1 h2
        have hcount := processLoop_count sftp s3m (if s3m.isSome then temp else localp)
          pre del ow filenames emptyResults r2 ops2 (by rw [hrec, h2])
        refine List.perm_iff_count.mpr fun a => ?_
        rw [h1, hcount a]
        simp [primary, emptyResults]
  · intro hcd
    unfold process_files
    rw [if_pos hcd]

/-- C2: when the orchestrator fails to select the working remote directory,
the run indeed aborts with no per-file outcomes (the Run Result is empty),
but the process then terminates with exit code 0, not 1: `main` computes
`total_failures` from the empty buckets and takes the success path.  This
theorem evaluates the code at the failing input, exhibiting exit code 0. -/
theorem C2_chdir_failure_exits_zero :
    process_files sftpChdirFails none ["a.csv"] "/" "./downloads" "" true false "/t" =
      (emptyResults, [], none) ∧
    mainProcessAndExit sftpChdirFails none ["a.csv"] "/" "./downloads" "" true false "/t" =
      some 0 := ⟨rfl, rfl⟩

/-- C3: for every completed run (Run Result returned and handed to
reporting), the exit code is 1 exactly when `sftp_download_failed` or
`s3_upload_failed` is non-empty, in either mode; non-empty `sftp_not_found`,
`s3_already_exists` or `sftp_delete_failed` buckets alone never flip the
exit code. -/
theorem C3_exit_code_iff_transfer_failures (sftp : SFTPBeh) (s3m : Option S3Beh)
    (filenames : List String) (remote localp pre temp : String) (del ow : Bool)
    (r : Results) (ops : List Op)
    (h : process_files sftp s3m filenames remote localp pre del ow temp = (r, ops, none)) :
    mainProcessAndExit sftp s3m filenames remote localp pre del ow temp =
      some (exitCode r s3m.isSome) ∧
    (exitCode r s3m.isSome = 1 ↔
      (r.sftp_download_failed ≠ [] ∨ r.s3_upload_failed ≠ [])) := by
  constructor
  · unfold mainProcessAndExit
    rw [h]
  · refine exitCode_eq_one_iff r s3m.isSome fun hnone => ?_
    have hs3 : s3m = none := by
      revert hnone; cases s3m <;> simp
    subst hs3
    have := (process_files_local_s3_buckets sftp filenames remote localp pre temp del ow).1
    rw [h] at this
    exact this

/-- C7: the temporary working area is created exactly once per run and only
when a destination store is configured, and its removal is attempted exactly
once per run whenever it was created — on every exit path of the per-filename
processing, including the path where an exception escapes the loop partway
through the filename set (the statement holds for every value of the escaping
exception component). -/
theorem C7_tempdir_lifecycle (sftp : SFTPBeh) (s3m : Option S3Beh)
    (filenames : List String) (remote localp pre temp : String) (del ow : Bool) :
    List.count Op.mkTempDir
        (process_files sftp s3m filenames remote localp pre del ow temp).2.1 =
      (if s3m.isSome = true ∧ SFTPManager.change_directory sftp remote = true
        then 1 else 0) ∧
    List.count Op.rmTempDir
        (process_files sftp s3m filenames remote localp pre del ow temp).2.1 =
      (if s3m.isSome = true ∧ SFTPManager.change_directory sftp remote = true
        then 1 else 0) := by
  by_cases hcd : SFTPManager.change_directory sftp remote = true
  · have hc := (process_files_components sftp s3m filenames remote localp pre del ow
      temp hcd).2.2
    rw [hc]
    have hno : ∀ op ∈ (processLoop sftp s3m (if s3m.isSome then temp else localp) pre
        del ow filenames emptyResults).2.1,
        op ≠ Op.mkTempDir ∧ op ≠ Op.rmTempDir := by
      intro op hop
      obtain ⟨f, -, hmem⟩ := mem_processLoop_ops sftp s3m _ pre del ow filenames
        emptyResults op hop
      rcases mem_processOne_fst sftp s3m _ pre del ow f op hmem with
        rfl | rfl | rfl | rfl | rfl | rfl <;> simp
    have h0mk : List.count Op.mkTempDir (processLoop sftp s3m
        (if s3m.isSome then temp else localp) pre del ow filenames emptyResults).2.1 = 0 :=
      List.count_eq_zero.mpr fun hmem => (hno _ hmem).1 rfl
    have h0rm : List.count Op.rmTempDir (processLoop sftp s3m
        (if s3m.isSome then temp else localp) pre del ow filenames emptyResults).2.1 = 0 :=
      List.count_eq_zero.mpr fun hmem => (hno _ hmem).2 rfl
    cases hs3 : s3m.isSome <;> simp [hs3] at h0mk h0rm <;>
      simp [List.count_append, h0mk, h0rm, hcd, hs3, List.count_singleton']
  · have hcd2 : SFTPManager.change_directory sftp remote = false := by
      revert hcd; cases SFTPManager.change_directory sftp remote <;> simp
    unfold process_files
    rw [if_pos hcd2]
    simp [hcd2]

/-- C10: in local mode (no destination store configured) the
`s3_upload_failed` and `s3_already_exists` buckets of the Run Result are
empty for every input list and every collaborator behaviour, and the
local-mode exit-code computation (which counts only `sftp_download_failed`)
agrees with the general fetch-failed-or-write-failed failure rule. -/
theorem C10_local_mode_agrees (sftp : SFTPBeh) (filenames : List String)
    (remote localp pre temp : String) (del ow : Bool) :
    (process_files sftp none filenames remote localp pre del ow temp).1.s3_upload_failed
        = [] ∧
    (process_files sftp none filenames remote localp pre del ow temp).1.s3_already_exists
        = [] ∧
    (exitCode (process_files sftp none filenames remote localp pre del ow temp).1
        (Option.isSome (none : Option S3Beh)) = 1 ↔
      ((process_files sftp none filenames remote localp pre del ow temp).1.sftp_download_failed
          ≠ [] ∨
       (process_files sftp none filenames remote localp pre del ow temp).1.s3_upload_failed
          ≠ [])) := by
  obtain ⟨h1, h2⟩ := process_files_local_s3_buckets sftp filenames remote localp pre
    temp del ow
  exact ⟨h1, h2, exitCode_eq_one_iff _ _ fun _ => h1⟩

/-- C4: for every filename whose fetch (and, in S3 mode, upload) succeeded —
expressed as: its loop iteration classifies it as a success outcome — with
deletion enabled, a failed source deletion still records the filename in the
`success` bucket of the completed run's Run Result, and additionally records
it in the `sftp_delete_failed` bucket: the same filename appears in both. -/
theorem C4_delete_failure_recorded_alongside_success (sftp : SFTPBeh)
    (s3m : Option S3Beh) (filenames : List String)
    (remote localp pre temp : String) (ow : Bool) (f : String) (e : ExcKind)
    (r : Results) (ops : List Op) (df : Bool)
    (hrm : sftp.remove f = .error e)
    (hmem : f ∈ filenames)
    (hcd : SFTPManager.change_directory sftp remote = true)
    (hrun : process_files sftp s3m filenames remote localp pre true ow temp =
      (r, ops, none))
    (hone : (processOne sftp s3m (if s3m.isSome then temp else localp) pre true ow f).2 =
      .ok (.successOutcome df)) :
    df = true ∧ f ∈ r.success ∧ f ∈ r.sftp_delete_failed := by
  have hdf : df = true := by
    rw [processOne_successOutcome_flag sftp s3m _ pre true ow f df hone]
    simp [SFTPManager.delete_file, hrm]
  subst hdf
  refine ⟨rfl, ?_⟩
  have hc := process_files_components sftp s3m filenames remote localp pre true ow temp hcd
  rw [hrun] at hc
  obtain ⟨h1, h2, -⟩ := hc
  cases hrec : processLoop sftp s3m (if s3m.isSome then temp else localp) pre true ow
      filenames emptyResults with
  | mk r2 rest =>
    cases rest with
    | mk ops2 exc2 =>
      rw [hrec] at h1 h2
      dsimp at h1 h2
      rw [h1]
      exact processLoop_mem_of_delete_failed_success sftp s3m _ pre true ow filenames
        emptyResults r2 ops2 f (by rw [hrec, h2]) hmem hone

/-- C5: for a filename present at the source, with a destination store
configured, overwrite disabled and the computed key already present at the
destination, the iteration classifies the filename as `alreadyExists` and
performs exactly the source existence check and the destination existence
check — no fetch, no upload and no deletion is invoked, the pre-check coming
before any transfer work. -/
theorem C5_already_at_destination_skips_transfer (sftp : SFTPBeh) (s3 : S3Beh)
    (dd pre : String) (del : Bool) (f : String)
    (h1 : SFTPManager.file_exists sftp f = true)
    (h2 : S3Manager.file_exists s3 (s3KeyOf pre f) = .ok true) :
    processOne sftp (some s3) dd pre del false f =
      ([Op.sftpStat f] ++ [Op.s3Head (s3KeyOf pre f)], .ok .alreadyExists) ∧
    (∀ g, Op.sftpGetTemp g ∉ (processOne sftp (some s3) dd pre del false f).1) ∧
    (∀ g, Op.sftpGetLocal g ∉ (processOne sftp (some s3) dd pre del false f).1) ∧
    (∀ k, Op.s3Upload k ∉ (processOne sftp (some s3) dd pre del false f).1) ∧
    (∀ g, Op.sftpRemove g ∉ (processOne sftp (some s3) dd pre del false f).1) := by
  have heq : processOne sftp (some s3) dd pre del false f =
      ([Op.sftpStat f] ++ [Op.s3Head (s3KeyOf pre f)], .ok .alreadyExists) := by
    simp [processOne, h1, h2]
  refine ⟨heq, ?_, ?_, ?_, ?_⟩ <;> intro x <;> rw [heq] <;> simp

/-- C6: for a filename present at the source whose destination pre-check does
not terminate the iteration, a failed fetch classifies the filename as
`downloadFailed`, and neither an upload nor a source deletion is attempted
for it. -/
theorem C6_fetch_failure_stops_pipeline (sftp : SFTPBeh) (s3m : Option S3Beh)
    (dd pre : String) (del ow : Bool) (f : String) (e : ExcKind)
    (h1 : SFTPManager.file_exists sftp f = true)
    (h2 : precheckClear s3m ow pre f = true)
    (h3 : sftp.getFile f = .error e) :
    (processOne sftp s3m dd pre del ow f).2 = .ok .downloadFailed ∧
    (∀ k, Op.s3Upload k ∉ (processOne sftp s3m dd pre del ow f).1) ∧
    (∀ g, Op.sftpRemove g ∉ (processOne sftp s3m dd pre del ow f).1) := by
  cases s3m with
  | none =>
      have heq : processOne sftp none dd pre del ow f =
          ([Op.sftpStat f] ++ [Op.sftpGetLocal f], .ok .downloadFailed) := by
        unfold processOne
        rw [h1]
        rw [if_neg (by simp)]
        simp [SFTPManager.download_file_to_local, h3]
      refine ⟨by rw [heq], ?_, ?_⟩ <;> intro x <;> rw [heq] <;> simp
  | some s3 =>
      have htr : s3TransferPhase sftp s3 dd (s3KeyOf pre f) del f =
          fun ops => (ops ++ [Op.sftpGetTemp f], .ok .downloadFailed) := by
        funext ops
        unfold s3TransferPhase
        simp [SFTPManager.download_file_to_temp, h3]
      unfold precheckClear at h2
      by_cases how : ow = false
      · subst how
        simp only [Bool.false_or] at h2
        cases hex : S3Manager.file_exists s3 (s3KeyOf pre f) with
        | error e2 => rw [hex] at h2; simp at h2
        | ok b =>
            cases b
            · have heq : processOne sftp (some s3) dd pre del false f =
                  ([Op.sftpStat f] ++ [Op.s3Head (s3KeyOf pre f)] ++ [Op.sftpGetTemp f],
                    .ok .downloadFailed) := by
                simp [processOne, h1, hex, htr]
              refine ⟨by rw [heq], ?_, ?_⟩ <;> intro x <;> rw [heq] <;> simp
            · rw [hex] at h2; simp at h2
      · have how2 : ow = true := by revert how; cases ow <;> simp
        subst how2
        have heq : processOne sftp (some s3) dd pre del true f =
            ([Op.sftpStat f] ++ [Op.sftpGetTemp f], .ok .downloadFailed) := by
          simp [processOne, h1, htr]
        refine ⟨by rw [heq], ?_, ?_⟩ <;> intro x <;> rw [heq] <;> simp

/-- C8 counterexample: with every SFTP call succeeding and the S3
`head_object` raising a non-`ClientError` (e.g. a connection error), the
destination-existence pre-check raises out of `S3Manager.file_exists`, and
the fault escapes the per-filename loop and `process_files` itself — refuting
the claim that every collaborator exception is caught at its step's boundary
and that a destination-existence check failure cannot escape the loop. -/
theorem C8_counterexample_head_fault_escapes :
    (process_files sftpAllOk (some s3HeadRaises) ["a.csv"] "/" "./downloads" ""
      true false "/t").2.2 = some ExcKind.otherError := rfl

/-- C8 amended: every exception raised by a collaborator during a pipeline
step is caught at that step's boundary and translated into the corresponding
outcome, except at the destination-existence pre-check, which absorbs only
`ClientError`-kind exceptions: any fault escaping the per-filename loop of
`process_files` is a non-`ClientError` raised by the destination existence
check of some input filename, with overwrite disabled. -/
theorem C8_amended_only_destination_check_escapes (sftp : SFTPBeh)
    (s3m : Option S3Beh) (filenames : List String)
    (remote localp pre temp : String) (del ow : Bool) (e : ExcKind)
    (h : (process_files sftp s3m filenames remote localp pre del ow temp).2.2 = some e) :
    ∃ f s3, f ∈ filenames ∧ s3m = some s3 ∧ ow = false ∧
      s3.headObject (s3KeyOf pre f) = .error e ∧
      ∀ c, e ≠ ExcKind.clientError c := by
  by_cases hcd : SFTPManager.change_directory sftp remote = true
  · have hc := (process_files_components sftp s3m filenames remote localp pre del ow
      temp hcd).2.1
    rw [hc] at h
    cases hrec : processLoop sftp s3m (if s3m.isSome then temp else localp) pre del ow
        filenames emptyResults with
    | mk r2 rest =>
      cases rest with
      | mk ops2 exc2 =>
        rw [hrec] at h
        dsimp at h
        obtain ⟨f, hmem, herr⟩ := processLoop_error_char sftp s3m _ pre del ow filenames
          emptyResults r2 ops2 e (by rw [hrec, h])
        obtain ⟨s3, hs3, how, hhead, hnc⟩ := processOne_error_char sftp s3m _ pre del ow
          f e herr
        exact ⟨f, s3, hmem, hs3, how, hhead, hnc⟩
  · have hcd2 : SFTPManager.change_directory sftp remote = false := by
      revert hcd; cases SFTPManager.change_directory sftp remote <;> simp
    unfold process_files at h
    rw [if_pos hcd2] at h
    simp at h

lemma extractNames_none_of_missing (col : String) :
    ∀ rows : List (List (String × String)),
      (∃ row ∈ rows, List.lookup col row = none) → extractNames rows col = none := by
  intro rows
  induction rows with
  | nil => simp
  | cons row rest ih =>
      intro h
      obtain ⟨row2, hmem, hlk⟩ := h
      rcases List.mem_cons.mp hmem with rfl | hmem2
      · unfold extractNames
        rw [hlk]
      · unfold extractNames
        cases hl : List.lookup col row with
        | none => rfl
        | some v => rw [ih ⟨row2, hmem2, hlk⟩]

lemma extractNames_eq_filterMap (col : String) :
    ∀ rows : List (List (String × String)),
      (∀ row ∈ rows, (List.lookup col row).isSome) →
      extractNames rows col = some (rows.filterMap fun row =>
        (List.lookup col row).bind fun v =>
          if pyStrip v ≠ "" then some (pyStrip v) else none) := by
  intro rows
  induction rows with
  | nil => intro h; simp [extractNames]
  | cons row rest ih =>
      intro h
      have hrow := h row (by simp)
      cases hl : List.lookup col row with
      | none => rw [hl] at hrow; simp at hrow
      | some v =>
          unfold extractNames
          rw [hl, ih fun rw2 hr => h rw2 (by simp [hr])]
          by_cases hv : pyStrip v = ""
          · simp [List.filterMap_cons, hl, hv]
          · simp [List.filterMap_cons, hl, hv]

/-- C9: the filename source returns exactly one of three results: the ordered
sequence of non-empty (stripped) names under the given column when the input
parses and every row carries the column; the distinct input-absent signal
`none`, produced exactly when the file does not exist; or `some []` on a
recoverable parse problem (read failure, column missing from the header, or a
row lacking the column) — absence is never conflated with present-but-empty. -/
theorem C9_csv_reader_trichotomy :
    (∀ col, read_csv_filenames .absent col = none) ∧
    (∀ input col, read_csv_filenames input col = none → input = CsvInput.absent) ∧
    (∀ col, read_csv_filenames .failOpen col = some []) ∧
    (∀ fieldnames rows col, col ∉ fieldnames →
        read_csv_filenames (.content fieldnames rows) col = some []) ∧
    (∀ fieldnames rows col, col ∈ fieldnames →
        (∀ row ∈ rows, (List.lookup col row).isSome) →
        read_csv_filenames (.content fieldnames rows) col =
          some (rows.filterMap fun row =>
            (List.lookup col row).bind fun v =>
              if pyStrip v ≠ "" then some (pyStrip v) else none)) ∧
    (∀ fieldnames rows col, (∃ row ∈ rows, List.lookup col row = none) →
        read_csv_filenames (.content fieldnames rows) col = some []) := by
  refine ⟨fun col => rfl, ?_, fun col => rfl, ?_, ?_, ?_⟩
  · intro input col h
    cases input with
    | absent => rfl
    | failOpen => simp [read_csv_filenames] at h
    | content fieldnames rows =>
        unfold read_csv_filenames at h
        dsimp only at h
        by_cases hcol : col ∈ fieldnames
        · rw [if_pos hcol] at h
          cases hx : extractNames rows col <;> rw [hx] at h <;> simp at h
        · rw [if_neg hcol] at h
          simp at h
  · intro fieldnames rows col hcol
    unfold read_csv_filenames
    dsimp only
    rw [if_neg hcol]
  · intro fieldnames rows col hcol hall
    unfold read_csv_filenames
    dsimp only
    rw [if_pos hcol, extractNames_eq_filterMap col rows hall]
  · intro fieldnames rows col hmiss
    unfold read_csv_filenames
    dsimp only
    by_cases hcol : col ∈ fieldnames
    · rw [if_pos hcol, extractNames_none_of_missing col rows hmiss]
    · rw [if_neg hcol]

/-- C1 witness: a concrete two-file all-success local run. -/
theorem C1_witness :
    (["a.csv", "b.csv"] : List String).Nodup ∧
    (primary (Results.mk ["a.csv", "b.csv"] [] [] [] [] [])).Perm ["a.csv", "b.csv"] :=
  ⟨by decide,
    (C1_run_result_partitions_input sftpAllOk none ["a.csv", "b.csv"] "/" "./downloads"
        "" "/t" true false (by decide)).1
      (Results.mk ["a.csv", "b.csv"] [] [] [] [] [])
      [Op.sftpStat "a.csv", Op.sftpGetLocal "a.csv", Op.sftpRemove "a.csv",
        Op.sftpStat "b.csv", Op.sftpGetLocal "b.csv", Op.sftpRemove "b.csv"]
      rfl rfl⟩

/-- C3 witness: a concrete local run whose single download fails, exit 1. -/
theorem C3_witness :
    mainProcessAndExit sftpGetFails none ["a.csv"] "/" "./downloads" "" true false "/t" =
      some (exitCode (Results.mk [] [] ["a.csv"] [] [] [])
        (Option.isSome (none : Option S3Beh))) ∧
    (exitCode (Results.mk [] [] ["a.csv"] [] [] [])
        (Option.isSome (none : Option S3Beh)) = 1 ↔
      ((Results.mk [] [] ["a.csv"] [] [] []).sftp_download_failed ≠ [] ∨
        (Results.mk [] [] ["a.csv"] [] [] []).s3_upload_failed ≠ [])) :=
  C3_exit_code_iff_transfer_failures sftpGetFails none ["a.csv"] "/" "./downloads" ""
    "/t" true false (Results.mk [] [] ["a.csv"] [] [] [])
    [Op.sftpStat "a.csv", Op.sftpGetLocal "a.csv"] rfl

/-- C4 witness: a concrete local run where deletion fails after a successful
download; the filename is in both `success` and `sftp_delete_failed`. -/
theorem C4_witness :
    sftpRemoveFails.remove "a.csv" = Except.error ExcKind.otherError ∧
    (true = true ∧
      "a.csv" ∈ (Results.mk ["a.csv"] [] [] [] ["a.csv"] []).success ∧
      "a.csv" ∈ (Results.mk ["a.csv"] [] [] [] ["a.csv"] []).sftp_delete_failed) :=
  ⟨rfl, C4_delete_failure_recorded_alongside_success sftpRemoveFails none ["a.csv"] "/"
    "./downloads" "" "/t" false "a.csv" ExcKind.otherError
    (Results.mk ["a.csv"] [] [] [] ["a.csv"] [])
    [Op.sftpStat "a.csv", Op.sftpGetLocal "a.csv", Op.sftpRemove "a.csv"] true
    rfl (by simp) rfl rfl rfl⟩

/-- C5 witness: a concrete S3-mode iteration where the key is already present. -/
theorem C5_witness :
    SFTPManager.file_exists sftpAllOk "a.csv" = true ∧
    S3Manager.file_exists s3KeyPresent (s3KeyOf "" "a.csv") = Except.ok true ∧
    processOne sftpAllOk (some s3KeyPresent) "/t" "" true false "a.csv" =
      ([Op.sftpStat "a.csv"] ++ [Op.s3Head (s3KeyOf "" "a.csv")],
        Except.ok FileOutcome.alreadyExists) :=
  ⟨rfl, rfl, (C5_already_at_destination_skips_transfer sftpAllOk s3KeyPresent "/t" ""
    true "a.csv" rfl rfl).1⟩

/-- C6 witness: a concrete local iteration whose fetch raises. -/
theorem C6_witness :
    SFTPManager.file_exists sftpGetFails "a.csv" = true ∧
    precheckClear none false "" "a.csv" = true ∧
    sftpGetFails.getFile "a.csv" = Except.error ExcKind.otherError ∧
    (processOne sftpGetFails none "./downloads" "" true false "a.csv").2 =
      Except.ok FileOutcome.downloadFailed :=
  ⟨rfl, rfl, rfl, (C6_fetch_failure_stops_pipeline sftpGetFails none "./downloads" ""
    true false "a.csv" ExcKind.otherError rfl rfl rfl).1⟩

/-- C8 witness: the amended characterization applied to the concrete run where
the destination existence check raises a non-`ClientError`. -/
theorem C8_amended_witness :
    (process_files sftpAllOk (some s3HeadRaises) ["a.csv"] "/" "./downloads" ""
        true false "/t").2.2 = some ExcKind.otherError ∧
    (∃ f s3, f ∈ ["a.csv"] ∧ (some s3HeadRaises : Option S3Beh) = some s3 ∧
      false = false ∧ s3.headObject (s3KeyOf "" f) = .error ExcKind.otherError ∧
      ∀ c, ExcKind.otherError ≠ ExcKind.clientError c) :=
  ⟨rfl, C8_amended_only_destination_check_escapes sftpAllOk (some s3HeadRaises)
    ["a.csv"] "/" "./downloads" "" "/t" true false ExcKind.otherError rfl⟩

/-- C9 witness: a concrete readable CSV with one blank and one padded name. -/
theorem C9_witness :
    "filename" ∈ ["filename"] ∧
    read_csv_filenames (CsvInput.content ["filename"]
        [[("filename", " a.csv ")], [("filename", "")]]) "filename" =
      some ["a.csv"] := by
  have h := C9_csv_reader_trichotomy.2.2.2.2.1 ["filename"]
    [[("filename", " a.csv ")], [("filename", "")]] "filename" (by simp) (by simp)
  refine ⟨by simp, ?_⟩
  rw [h]
  rfl
